import Mathlib

/-!
Shallow embedding of the Universal Recycle remote-caching subsystem
(`recycle/cache.py`) and proofs about it.

Modelling conventions:
* Timestamps (`datetime.now()`, `expires_at`, TTLs) are integers (seconds).
  Every operation that reads the clock takes the current time `now : Int`
  as an explicit argument.
* Payloads are byte lists (`List Nat`); free-form metadata is a list of
  string pairs.
* Each backend's persistent store (Redis keyspace, S3 bucket section,
  local cache directory) is an association list from the logical key to
  the stored entry.  The fixed per-backend key namespace transformation
  (`_make_key`, which prepends a constant string, and the local backend's
  md5 file naming) is injective per backend and is therefore dropped: the
  association list is keyed directly by the logical key.
* Serialization (`pickle.dumps` of `entry.to_dict()` on write,
  `pickle.loads` + `CacheEntry.from_dict` on read) round-trips, which is
  proved below for the `to_dict`/`from_dict` pair; the stores therefore
  hold `CacheEntry` values directly.
* Redis native key expiry (`setex`) is modelled by storing, next to each
  entry, the absolute deadline after which the key vanishes; a key whose
  deadline has passed behaves as absent and is pruned on access, and
  `setex` with a non-positive expire time fails (the Redis server rejects
  it with an error, which the backend's blanket exception handler turns
  into a `False` return).
-/

namespace UniversalRecycle

/-- Byte strings are modelled as lists of naturals. -/
abbrev Bytes := List Nat

/-- Association-list lookup keyed by strings, first match wins. -/
def lookupKey {α : Type} : List (String × α) → String → Option α
  | [], _ => none
  | (k', v) :: rest, k => if k' = k then some v else lookupKey rest k

/-- Remove every binding for a key from an association list. -/
def eraseKey {α : Type} : List (String × α) → String → List (String × α)
  | [], _ => []
  | (k', v) :: rest, k => if k' = k then eraseKey rest k else (k', v) :: eraseKey rest k

/-- Overwrite the binding for a key (stores replace existing files/objects/values). -/
def insertKey {α : Type} (store : List (String × α)) (k : String) (v : α) :
    List (String × α) :=
  (k, v) :: eraseKey store k

theorem lookupKey_eraseKey_self {α : Type} (s : List (String × α)) (k : String) :
    lookupKey (eraseKey s k) k = none := by
  induction s with
  | nil => rfl
  | cons p rest ih =>
    obtain ⟨k', v⟩ := p
    by_cases h : k' = k <;> simp [eraseKey, lookupKey, h, ih]

theorem lookupKey_eraseKey_ne {α : Type} (s : List (String × α)) {k k' : String}
    (h : k' ≠ k) : lookupKey (eraseKey s k) k' = lookupKey s k' := by
  induction s with
  | nil => rfl
  | cons p rest ih =>
    obtain ⟨k₀, v⟩ := p
    by_cases h₀ : k₀ = k
    · subst h₀
      have hk : k₀ ≠ k' := fun hc => h hc.symm
      simp [eraseKey, lookupKey, hk, ih]
    · by_cases h₁ : k₀ = k'
      · subst h₁; simp [eraseKey, lookupKey, h₀, ih]
      · simp [eraseKey, lookupKey, h₀, h₁, ih]

theorem lookupKey_insertKey_self {α : Type} (s : List (String × α)) (k : String) (v : α) :
    lookupKey (insertKey s k v) k = some v := by
  simp [insertKey, lookupKey]

theorem lookupKey_eraseKey_some {α : Type} {s : List (String × α)} {k k' : String} {v : α}
    (h : lookupKey (eraseKey s k) k' = some v) : lookupKey s k' = some v := by
  by_cases hk : k' = k
  · rw [hk, lookupKey_eraseKey_self] at h; exact absurd h (by simp)
  · rwa [lookupKey_eraseKey_ne s hk] at h

/-- The cache entry value object (`CacheEntry` dataclass): key, opaque
payload, creation and optional expiration timestamps, payload size in
bytes after manager-level serialization, and free-form metadata. -/
structure CacheEntry where
  key : String
  data : Bytes
  created_at : Int
  expires_at : Option Int
  size_bytes : Nat
  metadata : List (String × String)
deriving DecidableEq

/-- Model of `CacheEntry.is_expired`: entries without `expires_at` never
expire; otherwise expired exactly when the current time is strictly past
`expires_at`. -/
def CacheEntry.is_expired (e : CacheEntry) (now : Int) : Bool :=
  match e.expires_at with
  | none => false
  | some ex => decide (now > ex)

/-- Dictionary form of a cache entry produced by `CacheEntry.to_dict`
(timestamps appear in ISO form in the source; an ISO string and its
parsed timestamp are identified here, so the field keeps type `Int`). -/
structure CacheEntryDict where
  key : String
  data : Bytes
  created_at : Int
  expires_at : Option Int
  size_bytes : Nat
  metadata : List (String × String)
deriving DecidableEq

/-- Model of `CacheEntry.to_dict`. -/
def CacheEntry.to_dict (e : CacheEntry) : CacheEntryDict :=
  ⟨e.key, e.data, e.created_at, e.expires_at, e.size_bytes, e.metadata⟩

/-- Model of `CacheEntry.from_dict`; the source tests `data["expires_at"]`
for truthiness, and a stored `None` is falsy while a non-empty ISO string
is truthy, which is exactly the `Option` match below. -/
def CacheEntry.from_dict (d : CacheEntryDict) : CacheEntry :=
  ⟨d.key, d.data, d.created_at,
    match d.expires_at with
    | none => none
    | some ex => some ex,
    d.size_bytes, d.metadata⟩

theorem from_dict_to_dict (e : CacheEntry) : CacheEntry.from_dict e.to_dict = e := by
  obtain ⟨k, d, c, ex, sz, m⟩ := e
  cases ex <;> rfl

/-- Model of `pickle.dumps` applied to a bytes payload (protocol 4,
payload shorter than 256 bytes): 2-byte protocol header, FRAME opcode
with an 8-byte little-endian frame length, SHORT_BINBYTES opcode with a
1-byte length, the raw bytes, then MEMOIZE and STOP.  Total length is the
payload length plus 15. -/
def pickleDumps (b : Bytes) : Bytes :=
  [128, 4, 149, (b.length + 4) % 256, ((b.length + 4) / 256) % 256,
    ((b.length + 4) / 65536) % 256, ((b.length + 4) / 16777216) % 256, 0, 0, 0, 0]
    ++ [67, b.length % 256] ++ b ++ [148, 46]

theorem pickleDumps_length (b : Bytes) : (pickleDumps b).length = b.length + 15 := by
  simp [pickleDumps]

/-- State of a `RedisCacheBackend`: the keyspace maps each key to the
stored entry together with the absolute deadline installed by `setex`
(creation time plus the effective TTL), after which Redis itself drops
the key; plus the configured default TTL. -/
structure RedisState where
  store : List (String × (CacheEntry × Int))
  default_ttl : Int
deriving DecidableEq

/-- A key is live in Redis while its native deadline has not passed. -/
def redisLiveLookup (s : RedisState) (now : Int) (k : String) : Option (CacheEntry × Int) :=
  match lookupKey s.store k with
  | none => none
  | some (e, dl) => if now > dl then none else some (e, dl)

/-- Model of `RedisCacheBackend.get`: absent (and pruned by Redis) once
the native deadline passed; otherwise the stored entry is deserialized
and, if `is_expired`, deleted and reported absent; otherwise returned. -/
def redisGet (s : RedisState) (now : Int) (k : String) : Option CacheEntry × RedisState :=
  match lookupKey s.store k with
  | none => (none, s)
  | some (e, dl) =>
    if now > dl then (none, { s with store := eraseKey s.store k })
    else if e.is_expired now then (none, { s with store := eraseKey s.store k })
    else (some e, s)

/-- Model of `RedisCacheBackend.set`: the TTL is the configured default,
overridden by `expires_at - now` when `expires_at` is present, in which
case a non-positive TTL is rejected with `False`; `setex` then stores the
serialized entry with that TTL (the Redis server rejects `setex` with a
non-positive expire time, which the blanket exception handler turns into
`False`). -/
def redisSet (s : RedisState) (now : Int) (e : CacheEntry) : Bool × RedisState :=
  match e.expires_at with
  | some ex =>
    if ex - now ≤ 0 then (false, s)
    else (true, { s with store := insertKey s.store e.key (e, ex) })
  | none =>
    if s.default_ttl ≤ 0 then (false, s)
    else (true, { s with store := insertKey s.store e.key (e, now + s.default_ttl) })

/-- Model of `RedisCacheBackend.delete`: Redis `DEL` returns the number
of keys removed, which counts only keys that are still live. -/
def redisDelete (s : RedisState) (now : Int) (k : String) : Bool × RedisState :=
  ((redisLiveLookup s now k).isSome, { s with store := eraseKey s.store k })

/-- Model of `RedisCacheBackend.exists`: Redis `EXISTS` counts live keys. -/
def redisExists (s : RedisState) (now : Int) (k : String) : Bool :=
  (redisLiveLookup s now k).isSome

/-- Model of `RedisCacheBackend.clear`: deletes every key in the backend
namespace and reports success. -/
def redisClear (s : RedisState) : Bool × RedisState :=
  (true, { s with store := [] })

/-- State of a `LocalCacheBackend`: one file per key under the cache
directory, plus the configured default TTL (read in `__init__` but never
used by any operation of this backend). -/
structure LocalState where
  store : List (String × CacheEntry)
  default_ttl : Int
deriving DecidableEq

/-- Model of `LocalCacheBackend.get`: a missing file is a miss; an
existing file is unpickled and, if `is_expired`, deleted and reported
absent; otherwise returned. -/
def localGet (s : LocalState) (now : Int) (k : String) : Option CacheEntry × LocalState :=
  match lookupKey s.store k with
  | none => (none, s)
  | some e =>
    if e.is_expired now then (none, { s with store := eraseKey s.store k })
    else (some e, s)

/-- Model of `LocalCacheBackend.set`: unconditionally writes the pickled
entry to the key's file and returns `True`; no TTL check of any kind. -/
def localSet (s : LocalState) (e : CacheEntry) : Bool × LocalState :=
  (true, { s with store := insertKey s.store e.key e })

/-- Model of `LocalCacheBackend.delete`: unlinks the file if it exists
and returns `True`, else returns `False`. -/
def localDelete (s : LocalState) (k : String) : Bool × LocalState :=
  match lookupKey s.store k with
  | none => (false, s)
  | some _ => (true, { s with store := eraseKey s.store k })

/-- Model of `LocalCacheBackend.exists`: a pure file-existence check, with
no expiration check. -/
def localExists (s : LocalState) (k : String) : Bool :=
  (lookupKey s.store k).isSome

/-- Model of `LocalCacheBackend.clear`: unlinks every cache file. -/
def localClear (s : LocalState) : Bool × LocalState :=
  (true, { s with store := [] })

/-- State of an `S3CacheBackend`: the bucket section under the backend's
namespace, plus the configured default TTL (read in `__init__` but never
used by `set`/`get`).  `set` mirrors `expires_at` into the object
metadata, which is what `get` consults, so the stored entry's own
`expires_at` field stands for that metadata here. -/
structure S3State where
  store : List (String × CacheEntry)
  default_ttl : Int
deriving DecidableEq

/-- Model of `S3CacheBackend.get`: a missing object is a miss; if the
object metadata carries `expires_at` and it lies strictly in the past,
the object is deleted and reported absent; otherwise the object body is
downloaded and the entry returned (no further `is_expired` check). -/
def s3Get (s : S3State) (now : Int) (k : String) : Option CacheEntry × S3State :=
  match lookupKey s.store k with
  | none => (none, s)
  | some e =>
    match e.expires_at with
    | some ex =>
      if now > ex then (none, { s with store := eraseKey s.store k })
      else (some e, s)
    | none => (some e, s)

/-- Model of `S3CacheBackend.set`: unconditionally uploads the pickled
entry (with `expires_at` mirrored into object metadata when present) and
returns `True`; no TTL check of any kind. -/
def s3Set (s : S3State) (e : CacheEntry) : Bool × S3State :=
  (true, { s with store := insertKey s.store e.key e })

/-- Model of `S3CacheBackend.delete`: `delete_object` succeeds whether or
not the object exists, so the method always returns `True`. -/
def s3Delete (s : S3State) (k : String) : Bool × S3State :=
  (true, { s with store := eraseKey s.store k })

/-- Model of `S3CacheBackend.exists`: a `head_object` existence check,
with no expiration check. -/
def s3Exists (s : S3State) (k : String) : Bool :=
  (lookupKey s.store k).isSome

/-- Model of `S3CacheBackend.clear`: deletes every object under the
backend namespace. -/
def s3Clear (s : S3State) : Bool × S3State :=
  (true, { s with store := [] })

/-- The closed set of configured backend variants managed by
`CacheManager` (`redis`, `s3`, `local`). -/
inductive Backend where
  | redis (s : RedisState)
  | s3 (s : S3State)
  | localfs (s : LocalState)
deriving DecidableEq

/-- Dispatch `get` to the backend variant. -/
def backendGet : Backend → Int → String → Option CacheEntry × Backend
  | .redis s, now, k => let r := redisGet s now k; (r.fst, .redis r.snd)
  | .s3 s, now, k => let r := s3Get s now k; (r.fst, .s3 r.snd)
  | .localfs s, now, k => let r := localGet s now k; (r.fst, .localfs r.snd)

/-- Dispatch `set` to the backend variant. -/
def backendSet : Backend → Int → CacheEntry → Bool × Backend
  | .redis s, now, e => let r := redisSet s now e; (r.fst, .redis r.snd)
  | .s3 s, _, e => let r := s3Set s e; (r.fst, .s3 r.snd)
  | .localfs s, _, e => let r := localSet s e; (r.fst, .localfs r.snd)

/-- Dispatch `delete` to the backend variant. -/
def backendDelete : Backend → Int → String → Bool × Backend
  | .redis s, now, k => let r := redisDelete s now k; (r.fst, .redis r.snd)
  | .s3 s, _, k => let r := s3Delete s k; (r.fst, .s3 r.snd)
  | .localfs s, _, k => let r := localDelete s k; (r.fst, .localfs r.snd)

/-- Dispatch `exists` to the backend variant. -/
def backendExists : Backend → Int → String → Bool
  | .redis s, now, k => redisExists s now k
  | .s3 s, _, k => s3Exists s k
  | .localfs s, _, k => localExists s k

/-- Dispatch `clear` to the backend variant. -/
def backendClear : Backend → Bool × Backend
  | .redis s => let r := redisClear s; (r.fst, .redis r.snd)
  | .s3 s => let r := s3Clear s; (r.fst, .s3 r.snd)
  | .localfs s => let r := localClear s; (r.fst, .localfs r.snd)

/-- Raw persistence check: whether the backend physically holds a record
under the key (live or not), irrespective of expiry. -/
def backendHolds : Backend → String → Bool
  | .redis s, k => (lookupKey s.store k).isSome
  | .s3 s, k => (lookupKey s.store k).isSome
  | .localfs s, k => (lookupKey s.store k).isSome

/-- Expiration timestamp computed by `CacheManager.set`: the source tests
the `ttl` argument for truthiness (`if ttl:`), so both an omitted `ttl`
and `ttl = 0` yield no expiration; any other `ttl` yields `now + ttl`. -/
def expiresAtOf (ttl : Option Int) (now : Int) : Option Int :=
  match ttl with
  | none => none
  | some t => if t = 0 then none else some (now + t)

/-- The `CacheEntry` constructed inside `CacheManager.set`: created now,
expiring per `expiresAtOf`, with `size_bytes` the length of the pickled
payload (`len(pickle.dumps(data))`). -/
def managerEntry (now : Int) (key : String) (data : Bytes) (ttl : Option Int)
    (metadata : List (String × String)) : CacheEntry :=
  { key := key, data := data, created_at := now, expires_at := expiresAtOf ttl now,
    size_bytes := (pickleDumps data).length, metadata := metadata }

/-- Model of `CacheManager.get`: query backends in configured priority
order and return the first entry found; later backends are not queried
after a hit. -/
def managerGet : List Backend → Int → String → Option CacheEntry × List Backend
  | [], _, _ => (none, [])
  | b :: rest, now, k =>
    let r := backendGet b now k
    match r.fst with
    | some e => (some e, r.snd :: rest)
    | none =>
      let r' := managerGet rest now k
      (r'.fst, r.snd :: r'.snd)

/-- Fan the already-constructed entry out to every backend; overall
success when at least one backend accepted the write. -/
def managerSetEntry : List Backend → Int → CacheEntry → Bool × List Backend
  | [], _, _ => (false, [])
  | b :: rest, now, e =>
    let r := backendSet b now e
    let r' := managerSetEntry rest now e
    (r.fst || r'.fst, r.snd :: r'.snd)

/-- Model of `CacheManager.set`: build one entry, write it to every
backend, succeed when at least one backend accepted it. -/
def managerSet (bs : List Backend) (now : Int) (key : String) (data : Bytes)
    (ttl : Option Int) (metadata : List (String × String)) : Bool × List Backend :=
  managerSetEntry bs now (managerEntry now key data ttl metadata)

/-- Model of `CacheManager.delete`: fan out to every backend, success
when at least one backend deleted. -/
def managerDelete : List Backend → Int → String → Bool × List Backend
  | [], _, _ => (false, [])
  | b :: rest, now, k =>
    let r := backendDelete b now k
    let r' := managerDelete rest now k
    (r.fst || r'.fst, r.snd :: r'.snd)

/-- Model of `CacheManager.exists`: true when any backend reports the key. -/
def managerExists (bs : List Backend) (now : Int) (k : String) : Bool :=
  bs.any (fun b => backendExists b now k)

/-- Model of `CacheManager.clear`: clear every backend; success starts at
`True` and survives only if every backend's clear succeeds. -/
def managerClear : List Backend → Bool × List Backend
  | [] => (true, [])
  | b :: rest =>
    let r := backendClear b
    let r' := managerClear rest
    (r.fst && r'.fst, r.snd :: r'.snd)

/-- Model of `generate_build_cache_key`. -/
def generate_build_cache_key (repo_name commit_hash build_type : String) : String :=
  "build:" ++ repo_name ++ ":" ++ commit_hash ++ ":" ++ build_type

/-- Model of `generate_binding_cache_key`. -/
def generate_binding_cache_key (repo_name generator commit_hash : String) : String :=
  "binding:" ++ repo_name ++ ":" ++ generator ++ ":" ++ commit_hash

/-- Model of `generate_dependency_cache_key`. -/
def generate_dependency_cache_key (dependency_name version : String) : String :=
  "dep:" ++ dependency_name ++ ":" ++ version

/-- Model of `generate_file_hash_cache_key`. -/
def generate_file_hash_cache_key (file_path : String) : String :=
  "hash:" ++ file_path

/-- An identifier drawn from an alphabet without the key separator. -/
def noColon (s : String) : Prop := ':' ∉ s.data

instance noColonDecidable (s : String) : Decidable (noColon s) :=
  inferInstanceAs (Decidable (':' ∉ s.data))

theorem stringData_append (a b : String) : (a ++ b).data = a.data ++ b.data := rfl

theorem stringEqOfData {a b : String} (h : a.data = b.data) : a = b := by
  cases a
  cases b
  exact congrArg String.mk (by simpa using h)

theorem sepSplit (a : List Char) : ∀ (b x y : List Char), ':' ∉ a → ':' ∉ b →
    a ++ ':' :: x = b ++ ':' :: y → a = b ∧ x = y := by
  induction a with
  | nil =>
    intro b x y _ hb h
    cases b with
    | nil => simpa using h
    | cons b0 bs =>
      rw [List.nil_append, List.cons_append] at h
      injection h with h1 _
      rw [List.mem_cons, not_or] at hb
      exact absurd h1 hb.1
  | cons a0 as ih =>
    intro b x y ha hb h
    rw [List.mem_cons, not_or] at ha
    cases b with
    | nil =>
      rw [List.cons_append, List.nil_append] at h
      injection h with h1 _
      exact absurd h1.symm ha.1
    | cons b0 bs =>
      rw [List.mem_cons, not_or] at hb
      rw [List.cons_append, List.cons_append] at h
      injection h with h1 h2
      subst h1
      obtain ⟨hab, hxy⟩ := ih bs x y ha.2 hb.2 h2
      exact ⟨by rw [hab], hxy⟩

theorem buildKey_data (r c b : String) :
    (generate_build_cache_key r c b).data
      = 'b' :: 'u' :: 'i' :: 'l' :: 'd' :: ':' :: (r.data ++ ':' :: (c.data ++ ':' :: b.data)) := by
  have h1 : ("build:" : String).data = ['b', 'u', 'i', 'l', 'd', ':'] := rfl
  have h2 : (":" : String).data = [':'] := rfl
  simp [generate_build_cache_key, stringData_append, h1, h2]

theorem bindingKey_data (r g c : String) :
    (generate_binding_cache_key r g c).data
      = 'b' :: 'i' :: 'n' :: 'd' :: 'i' :: 'n' :: 'g' :: ':'
          :: (r.data ++ ':' :: (g.data ++ ':' :: c.data)) := by
  have h1 : ("binding:" : String).data = ['b', 'i', 'n', 'd', 'i', 'n', 'g', ':'] := rfl
  have h2 : (":" : String).data = [':'] := rfl
  simp [generate_binding_cache_key, stringData_append, h1, h2]

theorem depKey_data (n v : String) :
    (generate_dependency_cache_key n v).data
      = 'd' :: 'e' :: 'p' :: ':' :: (n.data ++ ':' :: v.data) := by
  have h1 : ("dep:" : String).data = ['d', 'e', 'p', ':'] := rfl
  have h2 : (":" : String).data = [':'] := rfl
  simp [generate_dependency_cache_key, stringData_append, h1, h2]

/-- The byte string b"hello". -/
def hello : Bytes := [104, 101, 108, 108, 111]

theorem isSome_lookupKey_eraseKey {α : Type} {s : List (String × α)} {k k' : String}
    (h : (lookupKey (eraseKey s k) k').isSome = true) : (lookupKey s k').isSome = true := by
  obtain ⟨v, hv⟩ := Option.isSome_iff_exists.mp h
  rw [lookupKey_eraseKey_some hv]
  rfl

/-- A backend whose `set` accepted an entry serves that entry back on an
immediate `get` of its key, as long as the entry is not already expired
at that instant. -/
theorem backendSet_get_same_time (b : Backend) (now : Int) (e : CacheEntry)
    (ha : (backendSet b now e).fst = true) (hne : e.is_expired now = false) :
    (backendGet (backendSet b now e).snd now e.key).fst = some e := by
  cases b with
  | redis s =>
    cases hex : e.expires_at with
    | some ex =>
      by_cases hle : ex - now ≤ 0
      · simp [backendSet, redisSet, hex, hle] at ha
      · have hnex : ¬ (now > ex) := by
          have := hne
          simp [CacheEntry.is_expired, hex] at this
          omega
        simp [backendSet, redisSet, hex, hle, backendGet, redisGet,
          lookupKey_insertKey_self, hnex, CacheEntry.is_expired]
    | none =>
      by_cases hdt : s.default_ttl ≤ 0
      · simp [backendSet, redisSet, hex, hdt] at ha
      · have hlt : ¬ (now > now + s.default_ttl) := by omega
        simp [backendSet, redisSet, hex, hdt, backendGet, redisGet,
          lookupKey_insertKey_self, hlt, CacheEntry.is_expired]
  | s3 s =>
    cases hex : e.expires_at with
    | some ex =>
      have hnex : ¬ (now > ex) := by
        have := hne
        simp [CacheEntry.is_expired, hex] at this
        omega
      simp [backendSet, s3Set, backendGet, s3Get, lookupKey_insertKey_self, hex, hnex]
    | none =>
      simp [backendSet, s3Set, backendGet, s3Get, lookupKey_insertKey_self, hex]
  | localfs s =>
    simp [backendSet, localSet, backendGet, localGet, lookupKey_insertKey_self, hne]

/-- Whether the backend physically holds a record under the key that its
`get` would treat as expired (and hence lazily evict or find natively
gone). -/
def backendHasExpiredAt : Backend → Int → String → Bool
  | .redis s, now, k =>
    match lookupKey s.store k with
    | some (e, dl) => decide (now > dl) || e.is_expired now
    | none => false
  | .s3 s, now, k =>
    match lookupKey s.store k with
    | some e =>
      match e.expires_at with
      | some ex => decide (now > ex)
      | none => false
    | none => false
  | .localfs s, now, k =>
    match lookupKey s.store k with
    | some e => e.is_expired now
    | none => false

/-- A backend holding no record under the queried key that its `get`
would treat as expired is left untouched by that `get`. -/
theorem backendGet_preserves (b : Backend) (now : Int) (k : String)
    (h : backendHasExpiredAt b now k = false) : (backendGet b now k).snd = b := by
  cases b with
  | redis s =>
    rcases hl : lookupKey s.store k with _ | ⟨e, dl⟩
    · simp [backendGet, redisGet, hl]
    · simp only [backendHasExpiredAt, hl, Bool.or_eq_false_iff, decide_eq_false_iff_not] at h
      simp [backendGet, redisGet, hl, h.1, h.2]
  | s3 s =>
    rcases hl : lookupKey s.store k with _ | e
    · simp [backendGet, s3Get, hl]
    · rcases hex : e.expires_at with _ | ex
      · simp [backendGet, s3Get, hl, hex]
      · simp only [backendHasExpiredAt, hl, hex, decide_eq_false_iff_not] at h
        simp [backendGet, s3Get, hl, hex, h]
  | localfs s =>
    rcases hl : lookupKey s.store k with _ | e
    · simp [backendGet, localGet, hl]
    · simp only [backendHasExpiredAt, hl] at h
      simp [backendGet, localGet, hl, h]

/-- C3: for every stored entry whose `expires_at` lies in the past, the
backend's `get` for that entry's key returns absent, and the backend
state afterwards is exactly the state produced by the backend's own
`delete` of that key (lazy eviction on read), for each backend variant.
For Redis, an entry past its `expires_at` is also past its native
`setex` deadline or caught by the `is_expired` check, and either path
leaves the keyspace exactly as `delete` would. -/
theorem expired_get_absent_and_deleted (now : Int) (k : String) (e : CacheEntry) (ex : Int)
    (he : e.expires_at = some ex) (hex : now > ex) :
    (∀ (rs : RedisState) (dl : Int), lookupKey rs.store k = some (e, dl) →
      (redisGet rs now k).fst = none ∧ (redisGet rs now k).snd = (redisDelete rs now k).snd)
    ∧ (∀ ls : LocalState, lookupKey ls.store k = some e →
      (localGet ls now k).fst = none ∧ (localGet ls now k).snd = (localDelete ls k).snd)
    ∧ (∀ ss : S3State, lookupKey ss.store k = some e →
      (s3Get ss now k).fst = none ∧ (s3Get ss now k).snd = (s3Delete ss k).snd) := by
  refine ⟨fun rs dl hl => ?_, fun ls hl => ?_, fun ss hl => ?_⟩
  · by_cases hdl : now > dl <;>
      simp [redisGet, hl, hdl, CacheEntry.is_expired, he, hex, redisDelete]
  · simp [localGet, hl, CacheEntry.is_expired, he, hex, localDelete]
  · simp [s3Get, hl, he, hex, s3Delete]

theorem expired_get_absent_and_deleted_witness :
    (redisGet ⟨[("k", (⟨"k", [1], 0, some 5, 16, []⟩, 5))], 3600⟩ 10 "k").fst = none
    ∧ (localGet ⟨[("k", ⟨"k", [1], 0, some 5, 16, []⟩)], 3600⟩ 10 "k").fst = none
    ∧ (s3Get ⟨[("k", ⟨"k", [1], 0, some 5, 16, []⟩)], 3600⟩ 10 "k").fst = none :=
  ⟨((expired_get_absent_and_deleted 10 "k" ⟨"k", [1], 0, some 5, 16, []⟩ 5 rfl
      (by decide)).1 ⟨[("k", (⟨"k", [1], 0, some 5, 16, []⟩, 5))], 3600⟩ 5 (by decide)).1,
   ((expired_get_absent_and_deleted 10 "k" ⟨"k", [1], 0, some 5, 16, []⟩ 5 rfl
      (by decide)).2.1 ⟨[("k", ⟨"k", [1], 0, some 5, 16, []⟩)], 3600⟩ (by decide)).1,
   ((expired_get_absent_and_deleted 10 "k" ⟨"k", [1], 0, some 5, 16, []⟩ 5 rfl
      (by decide)).2.2 ⟨[("k", ⟨"k", [1], 0, some 5, 16, []⟩)], 3600⟩ (by decide)).1⟩

/-- C4 counterexample: one local backend configured with
`default_ttl = 1`; `set("a", b"hello")` at time 0 without an explicit
ttl; at time 2 (after the supposed TTL elapsed) `get("a")` still returns
an entry and `exists("a")` is still true, contradicting the claim that
the backend's default TTL is applied to entries stored without an
explicit expiration. -/
theorem local_default_ttl_counterexample :
    ((managerGet (managerSet [Backend.localfs ⟨[], 1⟩] 0 "a" hello none []).snd 2 "a").fst).isSome
        = true
    ∧ managerExists (managerSet [Backend.localfs ⟨[], 1⟩] 0 "a" hello none []).snd 2 "a" = true := by
  decide

/-- C4 (amended): the local backend never applies its configured
`default_ttl`.  With a single local backend (any starting store, any
configured default TTL), `set("a", b"hello")` without an explicit ttl
succeeds, an immediate `get("a")` returns b"hello", and at every time
thereafter `get("a")` still returns the stored entry and `exists("a")`
is still true: the entry never expires. -/
theorem local_default_ttl_ignored (store : List (String × CacheEntry)) (dttl now t : Int)
    (m : List (String × String)) :
    (managerSet [Backend.localfs ⟨store, dttl⟩] now "a" hello none m).fst = true
    ∧ (managerGet (managerSet [Backend.localfs ⟨store, dttl⟩] now "a" hello none m).snd t "a").fst
        = some (managerEntry now "a" hello none m)
    ∧ managerExists (managerSet [Backend.localfs ⟨store, dttl⟩] now "a" hello none m).snd t "a"
        = true := by
  refine ⟨rfl, ?_, ?_⟩
  · simp [managerSet, managerSetEntry, backendSet, localSet, managerGet, backendGet,
      localGet, lookupKey_insertKey_self, CacheEntry.is_expired, managerEntry, expiresAtOf]
  · simp [managerSet, managerSetEntry, backendSet, localSet, managerExists, backendExists,
      localExists, lookupKey_insertKey_self, managerEntry]

/-- C5 counterexample: with zero active backends, `CacheManager.clear`
returns true (the all-backends-succeeded criterion is vacuously met),
not false as the claim states. -/
theorem zero_backends_clear_counterexample : (managerClear []).fst ≠ false := by
  decide

/-- C5 (amended): with zero active backends every manager operation is a
no-op: `get` returns absent, `set`, `delete` and `exists` return false,
and `clear` returns true (clear succeeds iff all backends succeed, which
holds vacuously); being total functions, these operations never raise. -/
theorem zero_backends_noop (now : Int) (k : String) (p : Bytes) (ttl : Option Int)
    (m : List (String × String)) :
    managerGet [] now k = (none, []) ∧ managerSet [] now k p ttl m = (false, [])
    ∧ managerDelete [] now k = (false, []) ∧ managerExists [] now k = false
    ∧ managerClear [] = (true, []) :=
  ⟨rfl, rfl, rfl, rfl, rfl⟩

/-- C6 counterexample: the S3 backend's `delete` on an empty store (no
entry for the key exists) still returns true, because `delete_object`
succeeds whether or not the object exists; the claim requires false. -/
theorem s3_delete_missing_counterexample :
    lookupKey (⟨[], 3600⟩ : S3State).store "k" = none
    ∧ (s3Delete ⟨[], 3600⟩ "k").fst = true := by
  decide

/-- C6 (amended): `delete` removes whatever record the backend holds for
the key, but its boolean differs per variant: Redis returns true iff a
live (not natively expired) entry existed; the local backend returns
true iff a cache file for the key existed, expired or not; and the S3
backend always returns true, even when no entry existed. -/
theorem delete_returns_per_variant (now : Int) (k : String) (rs : RedisState)
    (ls : LocalState) (ss : S3State) :
    ((redisDelete rs now k).fst = (redisLiveLookup rs now k).isSome
      ∧ lookupKey (redisDelete rs now k).snd.store k = none)
    ∧ ((localDelete ls k).fst = (lookupKey ls.store k).isSome
      ∧ lookupKey (localDelete ls k).snd.store k = none)
    ∧ ((s3Delete ss k).fst = true
      ∧ lookupKey (s3Delete ss k).snd.store k = none) := by
  refine ⟨⟨rfl, ?_⟩, ⟨?_, ?_⟩, rfl, ?_⟩
  · simp [redisDelete, lookupKey_eraseKey_self]
  · rcases hl : lookupKey ls.store k with _ | e <;> simp [localDelete, hl]
  · rcases hl : lookupKey ls.store k with _ | e <;>
      simp [localDelete, hl, lookupKey_eraseKey_self]
  · simp [s3Delete, lookupKey_eraseKey_self]

/-- C7 counterexample: for the payload b"hello" (5 bytes), the entry
constructed by `CacheManager.set` has `size_bytes` 20, the length of
`pickle.dumps(payload)`, not the byte length 5 of the payload itself. -/
theorem size_bytes_raw_counterexample :
    (managerEntry 0 "k" hello none []).size_bytes ≠ hello.length := by
  decide

/-- C7 (amended): `size_bytes` of the entry constructed by
`CacheManager.set` is the length of the manager-level serialized payload
(`len(pickle.dumps(data))`), which for a bytes payload shorter than 256
bytes is the payload length plus 15 bytes of pickle framing, not the raw
payload length. -/
theorem size_bytes_serialized_payload (now : Int) (k : String) (p : Bytes)
    (ttl : Option Int) (m : List (String × String)) (hp : p.length < 256) :
    (managerEntry now k p ttl m).size_bytes = (pickleDumps p).length
    ∧ (managerEntry now k p ttl m).size_bytes = p.length + 15 :=
  ⟨rfl, by simp [managerEntry, pickleDumps_length]⟩

theorem size_bytes_serialized_payload_witness :
    (managerEntry 0 "k" hello none []).size_bytes = hello.length + 15 :=
  (size_bytes_serialized_payload 0 "k" hello none [] (by decide)).2

/-- C10: `CacheManager.set` with `ttl = 0` is not rejected: the `ttl`
argument is tested for truthiness, so a zero ttl yields an entry with no
`expires_at` — an entry that never expires (identical to the entry
produced with no ttl at all) rather than one treated as already
expired. -/
theorem zero_ttl_never_expires (now : Int) (k : String) (p : Bytes)
    (m : List (String × String)) :
    (managerEntry now k p (some 0) m).expires_at = none
    ∧ (∀ t : Int, (managerEntry now k p (some 0) m).is_expired t = false)
    ∧ managerEntry now k p (some 0) m = managerEntry now k p none m := by
  refine ⟨by simp [managerEntry, expiresAtOf], fun t => ?_, by simp [managerEntry, expiresAtOf]⟩
  simp [CacheEntry.is_expired, managerEntry, expiresAtOf]

/-- C1 counterexample: a Redis backend configured with `default_ttl = 0`
holds a live older entry with payload [9] for key "k"; `set("k", [7])`
with no ttl is rejected by Redis (`setex` refuses a non-positive expire
time) but accepted by the second, local backend, so `set` returns true
and no expiry of the new entry intervenes — yet the immediate `get("k")`
is served by the higher-priority Redis backend and returns the stale
payload [9], not [7]. -/
theorem set_then_get_stale_counterexample :
    (managerSet [Backend.redis ⟨[("k", (⟨"k", [9], -5, some 100, 17, []⟩, 100))], 0⟩,
        Backend.localfs ⟨[], 3600⟩] 0 "k" [7] none []).fst = true
    ∧ (managerEntry 0 "k" [7] none []).is_expired 0 = false
    ∧ ((managerGet (managerSet [Backend.redis
          ⟨[("k", (⟨"k", [9], -5, some 100, 17, []⟩, 100))], 0⟩,
        Backend.localfs ⟨[], 3600⟩] 0 "k" [7] none []).snd 0 "k").fst).map CacheEntry.data
        = some [9]
    ∧ ([9] : Bytes) ≠ [7] := by
  decide

/-- C1 (amended): `set(k, p)` followed immediately by `get(k)` returns
an entry whose payload equals p, provided every configured backend
accepted the write (and no expiry intervenes).  At-least-one acceptance
is not enough: a higher-priority backend that rejected the write may
still serve a previously stored live entry with a different payload. -/
theorem set_then_get_returns_payload (bs : List Backend) (now : Int) (k : String) (p : Bytes)
    (ttl : Option Int) (m : List (String × String))
    (h1 : (managerSet bs now k p ttl m).fst = true)
    (hAll : ∀ b ∈ bs, (backendSet b now (managerEntry now k p ttl m)).fst = true)
    (h2 : (managerEntry now k p ttl m).is_expired now = false) :
    (managerGet (managerSet bs now k p ttl m).snd now k).fst = some (managerEntry now k p ttl m)
    ∧ (managerEntry now k p ttl m).data = p := by
  cases bs with
  | nil => simp [managerSet, managerSetEntry] at h1
  | cons b rest =>
    have hb := hAll b (List.mem_cons_self b rest)
    have hget := backendSet_get_same_time b now (managerEntry now k p ttl m) hb h2
    have hkey : (managerEntry now k p ttl m).key = k := rfl
    rw [hkey] at hget
    refine ⟨?_, rfl⟩
    simp [managerSet, managerSetEntry, managerGet, hget]

theorem set_then_get_returns_payload_witness :
    (managerGet (managerSet [Backend.localfs ⟨[], 3600⟩] 0 "k" [1] (some 5) []).snd 0 "k").fst
      = some (managerEntry 0 "k" [1] (some 5) []) :=
  (set_then_get_returns_payload [Backend.localfs ⟨[], 3600⟩] 0 "k" [1] (some 5) []
    (by decide) (by decide) (by decide)).1

/-- C2 counterexample: with a single local backend, `set` with
`ttl = -1` returns true, not false — the local backend stores the
already-expired entry and reports success. -/
theorem nonpositive_ttl_set_counterexample :
    (managerSet [Backend.localfs ⟨[], 3600⟩] 0 "k" [1] (some (-1)) []).fst = true := by
  decide

/-- C2 (amended): only the Redis variant rejects a write whose effective
TTL is non-positive (returning false and leaving its state untouched);
the local and S3 variants accept such a write and return true, so
`CacheManager.set` with e.g. `ttl = -1` returns true when a local or S3
backend is configured.  The stored entry is nevertheless unreadable:
a `get` of the key at or after the write time returns absent from every
variant. -/
theorem nonpositive_ttl_per_variant (now : Int) (k : String) (p : Bytes)
    (m : List (String × String)) (t : Int) (ht : t < 0) (rs : RedisState)
    (ls : LocalState) (ss : S3State) (t' : Int) (ht' : now ≤ t') :
    (redisSet rs now (managerEntry now k p (some t) m)).fst = false
    ∧ (redisSet rs now (managerEntry now k p (some t) m)).snd = rs
    ∧ (localSet ls (managerEntry now k p (some t) m)).fst = true
    ∧ (localGet (localSet ls (managerEntry now k p (some t) m)).snd t' k).fst = none
    ∧ (s3Set ss (managerEntry now k p (some t) m)).fst = true
    ∧ (s3Get (s3Set ss (managerEntry now k p (some t) m)).snd t' k).fst = none := by
  have htne : t ≠ 0 := by omega
  have hexp : (managerEntry now k p (some t) m).expires_at = some (now + t) := by
    simp [managerEntry, expiresAtOf, htne]
  have hle : now + t - now ≤ 0 := by omega
  have hgt : t' > now + t := by omega
  have hkey : (managerEntry now k p (some t) m).key = k := rfl
  have hle' : t ≤ 0 := by omega
  refine ⟨?_, ?_, rfl, ?_, rfl, ?_⟩
  · simp [redisSet, hexp, hle, hle']
  · simp [redisSet, hexp, hle, hle']
  · simp [localSet, localGet, hkey, lookupKey_insertKey_self, CacheEntry.is_expired,
      hexp, hgt]
  · simp [s3Set, s3Get, hkey, lookupKey_insertKey_self, hexp, hgt]

theorem nonpositive_ttl_per_variant_witness :
    (redisSet ⟨[], 3600⟩ 0 (managerEntry 0 "k" [1] (some (-1)) [])).fst = false
    ∧ (localGet (localSet ⟨[], 3600⟩ (managerEntry 0 "k" [1] (some (-1)) [])).snd 0 "k").fst
        = none :=
  ⟨(nonpositive_ttl_per_variant 0 "k" [1] [] (-1) (by decide) ⟨[], 3600⟩ ⟨[], 3600⟩
      ⟨[], 3600⟩ 0 (by decide)).1,
   (nonpositive_ttl_per_variant 0 "k" [1] [] (-1) (by decide) ⟨[], 3600⟩ ⟨[], 3600⟩
      ⟨[], 3600⟩ 0 (by decide)).2.2.2.1⟩

/-- C8 counterexample: with two local backends where the first holds an
expired entry for "k" and the second a live one, `get("k")` returns the
second backend's entry but does not leave the earlier backend unchanged:
the expired entry is lazily evicted from it during the read. -/
theorem fallback_read_eviction_counterexample :
    (managerGet [Backend.localfs ⟨[("k", ⟨"k", [1], 0, some 5, 16, []⟩)], 3600⟩,
        Backend.localfs ⟨[("k", ⟨"k", [2], 0, none, 16, []⟩)], 3600⟩] 10 "k").fst
      = some ⟨"k", [2], 0, none, 16, []⟩
    ∧ (managerGet [Backend.localfs ⟨[("k", ⟨"k", [1], 0, some 5, 16, []⟩)], 3600⟩,
        Backend.localfs ⟨[("k", ⟨"k", [2], 0, none, 16, []⟩)], 3600⟩] 10 "k").snd
      ≠ [Backend.localfs ⟨[("k", ⟨"k", [1], 0, some 5, 16, []⟩)], 3600⟩,
        Backend.localfs ⟨[("k", ⟨"k", [2], 0, none, 16, []⟩)], 3600⟩] := by
  decide

/-- C8 (amended): `CacheManager.get` queries backends in configured
priority order and returns the first entry found, and a read never
creates an entry in any backend (no write, promotion, or backfill); the
only state change a read can make to an earlier backend is the lazy
eviction of an entry its `get` finds expired under the queried key, so
whenever no queried backend holds such an expired record, all backend
states are left exactly unchanged. -/
theorem fallback_read_frame :
    (∀ (b : Backend) (now : Int) (k k' : String),
      backendHolds (backendGet b now k).snd k' = true → backendHolds b k' = true)
    ∧ (∀ (bs : List Backend) (now : Int) (k : String),
      (∀ b ∈ bs, backendHasExpiredAt b now k = false) → (managerGet bs now k).snd = bs) := by
  constructor
  · intro b now k k' h
    cases b with
    | redis s =>
      rcases hl : lookupKey s.store k with _ | ⟨e, dl⟩
      · simpa [backendGet, redisGet, hl] using h
      · by_cases h1 : now > dl
        · simp only [backendGet, redisGet, hl, if_pos h1, backendHolds] at h ⊢
          exact isSome_lookupKey_eraseKey h
        · by_cases h2 : e.is_expired now
          · simp only [backendGet, redisGet, hl, if_neg h1, if_pos h2, backendHolds] at h ⊢
            exact isSome_lookupKey_eraseKey h
          · simpa [backendGet, redisGet, hl, h1, h2] using h
    | s3 s =>
      rcases hl : lookupKey s.store k with _ | e
      · simpa [backendGet, s3Get, hl] using h
      · rcases hex : e.expires_at with _ | ex
        · simpa [backendGet, s3Get, hl, hex] using h
        · by_cases h1 : now > ex
          · simp only [backendGet, s3Get, hl, hex, if_pos h1, backendHolds] at h ⊢
            exact isSome_lookupKey_eraseKey h
          · simpa [backendGet, s3Get, hl, hex, h1] using h
    | localfs s =>
      rcases hl : lookupKey s.store k with _ | e
      · simpa [backendGet, localGet, hl] using h
      · by_cases h1 : e.is_expired now
        · simp only [backendGet, localGet, hl, if_pos h1, backendHolds] at h ⊢
          exact isSome_lookupKey_eraseKey h
        · simpa [backendGet, localGet, hl, h1] using h
  · intro bs now k h
    induction bs with
    | nil => rfl
    | cons b rest ih =>
      have hb := backendGet_preserves b now k (h b (List.mem_cons_self b rest))
      have hrest := ih (fun b' hb' => h b' (List.mem_cons_of_mem b hb'))
      cases hr : (backendGet b now k).fst with
      | some e => simp [managerGet, hr, hb]
      | none => simp [managerGet, hr, hb, hrest]

theorem fallback_read_frame_witness :
    backendHolds (Backend.localfs ⟨[("k", ⟨"k", [2], 0, none, 16, []⟩)], 3600⟩) "k" = true
    ∧ (managerGet [Backend.localfs ⟨[("k", ⟨"k", [2], 0, none, 16, []⟩)], 3600⟩] 0 "k").snd
        = [Backend.localfs ⟨[("k", ⟨"k", [2], 0, none, 16, []⟩)], 3600⟩] :=
  ⟨fallback_read_frame.1 (Backend.localfs ⟨[("k", ⟨"k", [2], 0, none, 16, []⟩)], 3600⟩)
      0 "k" "k" (by decide),
   fallback_read_frame.2 [Backend.localfs ⟨[("k", ⟨"k", [2], 0, none, 16, []⟩)], 3600⟩]
      0 "k" (by decide)⟩

/-- C9 counterexample: two distinct semantic tuples drawn from the same
identifier alphabet (one containing the separator character) collide
under `generate_build_cache_key`: ("a", "b:c", "d") and
("a:b", "c", "d") both derive the key "build:a:b:c:d". -/
theorem cache_key_collision_counterexample :
    generate_build_cache_key "a" "b:c" "d" = generate_build_cache_key "a:b" "c" "d"
    ∧ ("a", "b:c", "d") ≠ (("a:b", "c", "d") : String × String × String) := by
  exact ⟨rfl, by decide⟩

/-- C9 (amended): the key-derivation functions are collision-free on
identifiers that do not contain the separator ':' (for the components
followed by a separator; the final component may be arbitrary): each of
the three derivations is injective on such tuples, and keys from
different derivation functions never collide thanks to the distinct
"build:", "binding:" and "dep:" tags. With separator-containing
identifiers collisions do occur. -/
theorem cache_key_derivation_injective :
    (∀ r c b r' c' b' : String, noColon r → noColon c → noColon r' → noColon c' →
      generate_build_cache_key r c b = generate_build_cache_key r' c' b' →
      r = r' ∧ c = c' ∧ b = b')
    ∧ (∀ r g c r' g' c' : String, noColon r → noColon g → noColon r' → noColon g' →
      generate_binding_cache_key r g c = generate_binding_cache_key r' g' c' →
      r = r' ∧ g = g' ∧ c = c')
    ∧ (∀ n v n' v' : String, noColon n → noColon n' →
      generate_dependency_cache_key n v = generate_dependency_cache_key n' v' →
      n = n' ∧ v = v')
    ∧ (∀ x1 x2 x3 y1 y2 y3 : String,
      generate_build_cache_key x1 x2 x3 ≠ generate_binding_cache_key y1 y2 y3)
    ∧ (∀ x1 x2 x3 y1 y2 : String,
      generate_build_cache_key x1 x2 x3 ≠ generate_dependency_cache_key y1 y2)
    ∧ (∀ x1 x2 x3 y1 y2 : String,
      generate_binding_cache_key x1 x2 x3 ≠ generate_dependency_cache_key y1 y2) := by
  refine ⟨?_, ?_, ?_, ?_, ?_, ?_⟩
  · intro r c b r' c' b' hr hc hr' hc' h
    have hd := congrArg String.data h
    rw [buildKey_data, buildKey_data] at hd
    injection hd with _ hd; injection hd with _ hd; injection hd with _ hd
    injection hd with _ hd; injection hd with _ hd; injection hd with _ hd
    obtain ⟨h1, h2⟩ := sepSplit r.data r'.data _ _ hr hr' hd
    obtain ⟨h3, h4⟩ := sepSplit c.data c'.data _ _ hc hc' h2
    exact ⟨stringEqOfData h1, stringEqOfData h3, stringEqOfData h4⟩
  · intro r g c r' g' c' hr hg hr' hg' h
    have hd := congrArg String.data h
    rw [bindingKey_data, bindingKey_data] at hd
    injection hd with _ hd; injection hd with _ hd; injection hd with _ hd
    injection hd with _ hd; injection hd with _ hd; injection hd with _ hd
    injection hd with _ hd; injection hd with _ hd
    obtain ⟨h1, h2⟩ := sepSplit r.data r'.data _ _ hr hr' hd
    obtain ⟨h3, h4⟩ := sepSplit g.data g'.data _ _ hg hg' h2
    exact ⟨stringEqOfData h1, stringEqOfData h3, stringEqOfData h4⟩
  · intro n v n' v' hn hn' h
    have hd := congrArg String.data h
    rw [depKey_data, depKey_data] at hd
    injection hd with _ hd; injection hd with _ hd; injection hd with _ hd
    injection hd with _ hd
    obtain ⟨h1, h2⟩ := sepSplit n.data n'.data _ _ hn hn' hd
    exact ⟨stringEqOfData h1, stringEqOfData h2⟩
  · intro x1 x2 x3 y1 y2 y3 h
    have hd := congrArg String.data h
    rw [buildKey_data, bindingKey_data] at hd
    injection hd with _ hd; injection hd with h2 _
    exact absurd h2 (by decide)
  · intro x1 x2 x3 y1 y2 h
    have hd := congrArg String.data h
    rw [buildKey_data, depKey_data] at hd
    injection hd with h1 _
    exact absurd h1 (by decide)
  · intro x1 x2 x3 y1 y2 h
    have hd := congrArg String.data h
    rw [bindingKey_data, depKey_data] at hd
    injection hd with h1 _
    exact absurd h1 (by decide)

theorem cache_key_derivation_injective_witness :
    ("a" : String) = "a" ∧ ("b" : String) = "b" ∧ ("c" : String) = "c" :=
  cache_key_derivation_injective.1 "a" "b" "c" "a" "b" "c"
    (by decide) (by decide) (by decide) (by decide) rfl

end UniversalRecycle
